import Mathlib

/-!
Verification of the bharatqa-backend video-analysis pipeline.

The repository contains three variants of the analyzer:
* `src/ai-analyzer-cloud.js` (the "cloud" variant),
* `src/unnamed/part_005` (cloud variant with download status check,
  report partitioning and a dropped frame-count argument),
* `src/unnamed/part_007` (local variant with pixel-grid comparison,
  classifier and a richer duplicate filter).

Every definition below is a shallow embedding of a function of one of
these files; external effects (HTTP download, ffprobe, ffmpeg frame
extraction, Gemini inference, Postgres writes, object storage) are
modelled as environment-supplied outcomes, threaded exactly along the
control flow of the JavaScript source.  JS numbers are modelled as `ℚ`,
`Math.round` and `Math.floor` by `Int.floor`-based functions, JS string
truthiness and `null` by `Option String`.
-/

namespace BharatQA

/-- A frame record as produced by `extractFrames` (`{ path, timestamp }`),
optionally mutated by the duplicate filter (`frozenDuration`) and the
part_007 classifier (`ftype`, the JS `type` field). -/
structure Frame where
  path : String
  timestamp : ℚ
  frozenDuration : Option ℤ := none
  ftype : Option String := none
deriving DecidableEq, Repr

/-- JS `Math.round` on the arguments appearing in the source (it is applied
to finite numbers only): round half up. -/
def jsRound (q : ℚ) : ℤ := ⌊q + 1 / 2⌋

/-- Erase the field that the duplicate filter itself mutates; used to state
that a frame survives the filter unchanged up to its freeze annotation. -/
def stripFrozen (f : Frame) : Frame := { f with frozenDuration := none }

/-- Model of `getFrameCount` of ai-analyzer-cloud.js lines 77-85, part_005 lines
83-91 and part_007 lines 18-26 (all three are identical): the frame budget
as a step function of the video duration in seconds. -/
def getFrameCount (dur : ℚ) : ℕ :=
  if dur < 30 then 10
  else if dur < 60 then 15
  else if dur < 120 then 25
  else if dur < 180 then 35
  else if dur < 300 then 45
  else if dur < 600 then 60
  else 80

/-- JS `[...new Set(l)]`: de-duplicate keeping the first occurrence of each
value, preserving order (used on the candidate timestamps). -/
def jsSetDedup : List ℤ → List ℤ
  | [] => []
  | x :: xs => x :: jsSetDedup (xs.filter (fun y => y ≠ x))
termination_by l => l.length
decreasing_by simpa using Nat.lt_succ_of_le (List.length_filter_le _ _)

/-- The candidate timestamp list of `extractFrames` (part_005 lines
110-115, identical in ai-analyzer-cloud.js lines 104-109):
`[...new Set(Array.from({ length: count }, (_, i) => Math.floor(start + (i / (count - 1)) * range)))]`.
When the `count` argument of `extractFrames` is omitted (`undefined`),
`Array.from({ length: undefined })` is the empty array, hence `none ↦ []`. -/
def candidateTimes (dur : ℚ) (count : Option ℕ) : List ℤ :=
  match count with
  | none => []
  | some n =>
    let start := min 1 (dur * (5 / 100))
    let stop := max (dur - 1) (dur * (95 / 100))
    let range := stop - start
    jsSetDedup ((List.range n).map (fun i => ⌊start + ((i : ℚ) / ((n : ℚ) - 1)) * range⌋))

/-- Stable insertion into a timestamp-sorted list, modelling the JS
`frames.sort((a, b) => a.timestamp - b.timestamp)`. -/
def insertByTs (f : Frame) : List Frame → List Frame
  | [] => [f]
  | g :: gs => if f.timestamp ≤ g.timestamp then f :: g :: gs else g :: insertByTs f gs

/-- Stable sort by timestamp, modelling the JS `Array.prototype.sort` call
at the end of `extractFrames`. -/
def sortByTs : List Frame → List Frame
  | [] => []
  | f :: fs => insertByTs f (sortByTs fs)

/-- Model of `extractFrames` of part_005 lines 102-144 (ai-analyzer-cloud.js lines
96-138 is identical).  `probe` is the outcome of the inner `ffmpeg.ffprobe`
call; a probe error rejects, a falsy duration rejects with `'No duration'`.
`frameAt` is the per-timestamp outcome of the external ffmpeg extraction
(`none` when the extraction errored or the output file is missing or not
larger than 500 bytes — per-timestamp failures are tolerated).  The
surviving frames are sorted by timestamp. -/
def extractFramesModel (probe : Except String ℚ) (frameAt : ℤ → Option Frame)
    (count : Option ℕ) : Except String (List Frame) :=
  match probe with
  | .error e => .error e
  | .ok dur =>
    if dur = 0 then .error "No duration"
    else
      let times := candidateTimes dur count
      if times.length = 0 then .ok []
      else .ok (sortByTs (times.filterMap frameAt))

/-! ### Duplicate and freeze filter, cloud / part_005 variant -/

/-- The loop state of `filterDuplicates` (ai-analyzer-cloud.js lines
157-176, part_005 lines 163-182).  `uniqueRev` is the JS `unique` array in
reverse (its head is `unique[unique.length - 1]`, the most recently
retained frame); `prev` is the previously processed input frame
(`frames[i - 1]`). -/
structure FilterState where
  uniqueRev : List Frame
  removed : ℕ
  freezes : ℕ
  streak : ℕ
  prev : Frame

/-- One iteration of the `filterDuplicates` loop (ai-analyzer-cloud.js
lines 162-173).  `sim` is the `compareFrames` similarity on the two
frames' byte locations; the retention threshold is the literal 85. -/
def filterStep (sim : String → String → ℚ) (s : FilterState) (c : Frame) : FilterState :=
  match s.uniqueRev with
  | [] => s
  | last :: restRev =>
    if sim last.path c.path < 85 then
      let uniqueRev :=
        if s.streak > 2 then
          { last with frozenDuration := some (jsRound (s.prev.timestamp - last.timestamp)) } :: restRev
        else last :: restRev
      { uniqueRev := c :: uniqueRev
        removed := s.removed
        freezes := if s.streak > 2 then s.freezes + 1 else s.freezes
        streak := 0
        prev := c }
    else
      { s with removed := s.removed + 1, streak := s.streak + 1, prev := c }

/-- The state after the `filterDuplicates` loop over `f0 :: rest`. -/
def filterCore (sim : String → String → ℚ) (f0 : Frame) (rest : List Frame) : FilterState :=
  rest.foldl (filterStep sim) ⟨[f0], 0, 0, 0, f0⟩

/-- The return object of `filterDuplicates`:
`{ unique, removed, freezes }`. -/
structure FilterResult where
  unique : List Frame
  removed : ℕ
  freezes : ℕ
deriving DecidableEq, Repr

/-- Model of `filterDuplicates` of ai-analyzer-cloud.js lines 157-176 (part_005
lines 163-182 is identical).  Sequences of length at most 1 are returned
unchanged; otherwise the first frame is always retained, and at end of
input an open streak longer than 2 only increments the freeze counter
(line 174: `if (streak > 2) freezes++;` — no `frozenDuration` is written
there). -/
def filterDuplicates (sim : String → String → ℚ) : List Frame → FilterResult
  | [] => ⟨[], 0, 0⟩
  | [f] => ⟨[f], 0, 0⟩
  | f0 :: f1 :: rest =>
    let s := filterCore sim f0 (f1 :: rest)
    ⟨s.uniqueRev.reverse, s.removed, if s.streak > 2 then s.freezes + 1 else s.freezes⟩

/-! ### Duplicate and freeze filter, part_007 variant -/

/-- The loop state of `filterDuplicateFrames` (part_007 lines 146-203).
`streakStartTime` is the JS variable of the same name (the timestamp of
the most recently retained frame), `prev` is `frameFiles[i - 1]`. -/
structure FilterState7 where
  uniqueRev : List Frame
  duplicatesRemoved : ℕ
  frozenStreaks : ℕ
  currentStreak : ℕ
  streakStartTime : ℚ
  prev : Frame

/-- One iteration of the `filterDuplicateFrames` loop (part_007 lines
157-180), with similarity threshold `θ` (the driver passes 92). -/
def filterStep7 (sim : String → String → ℚ) (θ : ℚ) (s : FilterState7) (c : Frame) :
    FilterState7 :=
  match s.uniqueRev with
  | [] => s
  | last :: restRev =>
    if sim last.path c.path < θ then
      let uniqueRev :=
        if s.currentStreak > 2 then
          { last with frozenDuration := some (jsRound (s.prev.timestamp - s.streakStartTime)) } :: restRev
        else last :: restRev
      { uniqueRev := c :: uniqueRev
        duplicatesRemoved := s.duplicatesRemoved
        frozenStreaks := if s.currentStreak > 2 then s.frozenStreaks + 1 else s.frozenStreaks
        currentStreak := 0
        streakStartTime := c.timestamp
        prev := c }
    else
      { s with duplicatesRemoved := s.duplicatesRemoved + 1,
               currentStreak := s.currentStreak + 1, prev := c }

/-- The state after the `filterDuplicateFrames` loop over `f0 :: rest`. -/
def filterCore7 (sim : String → String → ℚ) (θ : ℚ) (f0 : Frame) (rest : List Frame) :
    FilterState7 :=
  rest.foldl (filterStep7 sim θ) ⟨[f0], 0, 0, 0, f0.timestamp, f0⟩

/-- Write `frozenDuration` on `uniqueFrames[uniqueFrames.length - 1]`
(the head of the reversed accumulator). -/
def markFrozenHead (l : List Frame) (d : ℤ) : List Frame :=
  match l with
  | [] => []
  | f :: rest => { f with frozenDuration := some d } :: rest

/-- Model of `filterDuplicateFrames` of part_007 lines 146-203.  After the loop,
an open streak longer than 2 writes `frozenDuration` on the last retained
frame (lines 183-188, gap from `streakStartTime` to the final input
frame's timestamp) and the "always keep last frame" block (lines 190-198)
re-compares the final input frame against the last retained frame. -/
def filterDuplicateFrames (sim : String → String → ℚ) (θ : ℚ) : List Frame → List Frame
  | [] => []
  | [f] => [f]
  | f0 :: f1 :: rest =>
    let s := filterCore7 sim θ f0 (f1 :: rest)
    let uniqueRev :=
      if s.currentStreak > 2 then
        markFrozenHead s.uniqueRev (jsRound (s.prev.timestamp - s.streakStartTime))
      else s.uniqueRev
    let uniqueRev2 :=
      match uniqueRev with
      | [] => uniqueRev
      | lastUnique :: _ =>
        if s.prev.path ≠ lastUnique.path ∧ sim lastUnique.path s.prev.path < θ then
          s.prev :: uniqueRev
        else uniqueRev
    uniqueRev2.reverse

/-- The volume capper (ai-analyzer-cloud.js line 267, part_005 line 252,
part_007 lines 561-567):
`unique.length > 50 ? unique.filter((_, i) => i % Math.ceil(unique.length / 50) === 0) : unique`. -/
def capFrames (unique : List Frame) : List Frame :=
  if unique.length > 50 then
    (unique.enum.filter (fun p => p.1 % ((unique.length + 49) / 50) = 0)).map Prod.snd
  else unique

/-! ### Report partitioner (part_005 lines 330-336) -/

/-- Whitespace for JS `String.prototype.trim` (the characters that can
occur in this pipeline's strings). -/
def isWS (c : Char) : Bool :=
  c == ' ' || c == '\t' || c == '\n' || c == '\r' || c == '\x0b' || c == '\x0c'

/-- JS `text.trim()` on a character list. -/
def jsTrim (t : List Char) : List Char :=
  ((t.dropWhile isWS).reverse.dropWhile isWS).reverse

/-- Split at the leftmost occurrence of `d`: `some (before, after)` when
`d` occurs in `t`, `none` otherwise.  Models the pair
`text.includes(d)` / `text.split(d)` of JS for the first split point. -/
def splitFirst (d : List Char) : List Char → Option (List Char × List Char)
  | [] => if d.isPrefixOf ([] : List Char) then some ([], []) else none
  | c :: cs =>
    if d.isPrefixOf (c :: cs) then some ([], (c :: cs).drop d.length)
    else
      match splitFirst d cs with
      | none => none
      | some (a, b) => some (c :: a, b)

/-- The delimiter occurs exactly once in `t` (the JS split produces
exactly two parts). -/
def occursOnce (d t : List Char) : Bool :=
  match splitFirst d t with
  | none => false
  | some (_, b) => (splitFirst d b).isNone

/-- Test that `hay` contains `needle` as a contiguous substring (JS `includes`). -/
def containsSub (needle hay : List Char) : Bool := (splitFirst needle hay).isSome

/-- The literal internal-section delimiter of part_005 (lines 238, 311,
332-333). -/
def DELIM : List Char := "==== INTERNAL ADMIN VERDICT ====".toList

/-- The report partition of part_005 lines 330-336: `publicReport` starts
as the whole text; only when the delimiter occurs are the first two parts
of `analysis.split(delimiter)` trimmed into the public report and the
admin context.  With no delimiter the public report is the untrimmed
original and the admin context is empty. -/
def partitionReport (analysis : List Char) : List Char × List Char :=
  match splitFirst DELIM analysis with
  | none => (analysis, [])
  | some (before, rest) =>
    let part1 :=
      match splitFirst DELIM rest with
      | none => rest
      | some (b2, _) => b2
    (jsTrim before, jsTrim part1)

/-! ### Download -/

/-- Model of `downloadFile` of ai-analyzer-cloud.js lines 61-75, applied to the
chain of HTTP responses met while following redirects (one status per
response; 301/302 recurse on the `location` header).  This variant has no
status check: any non-redirect response is piped into the destination
file and the promise resolves. -/
def downloadFileCloud : List ℕ → Except String Unit
  | [] => .error "socket error"
  | s :: rest =>
    if s = 301 ∨ s = 302 then
      match rest with
      | [] => .error "redirect without location"
      | _ => downloadFileCloud rest
    else .ok ()

/-- Model of `downloadFile` of part_005 lines 61-81: same redirect handling, but a
non-redirect status other than 200 rejects with
`'HTTP <status> downloading video'` after deleting the partial file. -/
def downloadFile5 : List ℕ → Except String Unit
  | [] => .error "socket error"
  | s :: rest =>
    if s = 301 ∨ s = 302 then
      match rest with
      | [] => .error "redirect without location"
      | _ => downloadFile5 rest
    else if s ≠ 200 then .error ("HTTP " ++ toString s ++ " downloading video")
    else .ok ()

/-! ### Inference loops -/

/-- The backend fallback loop of ai-analyzer-cloud.js lines 296-325 and
214-251 and of part_005 lines 219-248 and 280-325: try each model name in
order; the first attempt that does not throw sets `analysis` and
`usedModel` and breaks (even when the returned text is empty); a throwing
attempt is logged and the next model is tried.  `respond` is the outcome
of `model.generateContent` for each model name. -/
def tryModels (respond : String → Except String String) : List String → Option String × Option String
  | [] => (none, none)
  | m :: rest =>
    match respond m with
    | .ok text => (some text, some m)
    | .error _ => tryModels respond rest

/-- JS truthiness of the `analysis` variable (`null` and the empty string
are falsy). -/
def truthyStr : Option String → Bool
  | none => false
  | some s => s ≠ ""

/-- The model priority list of ai-analyzer-cloud.js lines 214 and 293. -/
def cloudModels : List String :=
  ["models/gemini-2.5-flash", "models/gemini-2.5-flash-lite", "models/gemini-1.5-flash-latest"]

/-- The model priority list of part_005 lines 217 and 279. -/
def models5 : List String :=
  ["gemini-2.0-flash", "gemini-1.5-flash", "gemini-1.5-flash-8b", "gemini-1.5-flash-latest"]

/-- The return object of `analyzeWithGemini` (part_007): absent JS fields
are `none`. -/
structure GemResult where
  success : Bool
  analysis : Option String := none
  framesAnalyzed : Option ℕ := none
  model : Option String := none
  error : Option String := none
deriving DecidableEq, Repr

/-- The model priority list of part_007 lines 249-255. -/
def geminiModels7 : List String :=
  ["models/gemini-2.5-flash", "models/gemini-2.5-flash-lite", "models/gemini-1.5-flash-latest",
   "models/gemini-1.5-flash-8b", "models/gemini-pro-vision"]

/-- The backend loop of `analyzeWithGemini` (part_007 lines 259-485):
each iteration rebuilds the image parts (`imageCount` many, constant
across iterations since the filesystem is not changed inside the loop);
an empty image list returns `'No frames to analyze'` immediately; a
throwing attempt records `lastError` and continues; after the loop the
error is `'All models failed: ' + lastError`. -/
def tryGemini7 (respond : String → Except String String) (imageCount : ℕ) :
    List String → String → GemResult
  | [], lastError => { success := false, error := some ("All models failed: " ++ lastError) }
  | m :: rest, _lastError =>
    if imageCount = 0 then { success := false, error := some "No frames to analyze" }
    else
      match respond m with
      | .ok text =>
        { success := true, analysis := some text, framesAnalyzed := some imageCount,
          model := some m }
      | .error e => tryGemini7 respond imageCount rest e

/-- Model of `analyzeWithGemini` of part_007 lines 244-485.  `hasKey` models the
`GEMINI_API_KEY` guard, `fexists` the `fs.existsSync` test on each frame
path, `respond` the per-model `generateContent` outcome. -/
def analyzeWithGemini (hasKey : Bool) (fexists : String → Bool)
    (respond : String → Except String String) (frameData : List Frame) : GemResult :=
  if !hasKey then { success := false, error := some "No Gemini API key configured" }
  else tryGemini7 respond ((frameData.filter (fun f => fexists f.path)).length) geminiModels7 ""

/-! ### Job drivers -/

/-- The terminal result object of `analyzeBugReport` in
ai-analyzer-cloud.js and part_005; fields absent on a code path are
`none`. -/
structure AnalysisResult where
  success : Bool
  analysis : Option String := none
  model : Option String := none
  error : Option String := none
deriving DecidableEq, Repr

/-- The catch-handler result (ai-analyzer-cloud.js lines 354-358, part_005
lines 348-352): `{ success: false, error: err.message }`. -/
def failResult (e : String) : AnalysisResult := { success := false, error := some e }

/-- The success-path return (ai-analyzer-cloud.js lines 262 and 352,
part_005 line 346):
`{ success: !!analysis, analysis, model: usedModel, error: analysis ? null : 'All models failed' }`. -/
def finishResult (analysisOpt usedModel : Option String) : AnalysisResult :=
  { success := truthyStr analysisOpt
    analysis := analysisOpt
    model := usedModel
    error := if truthyStr analysisOpt then none else some "All models failed" }

/-- The frame persistence loop of ai-analyzer-cloud.js lines 334-347: for
each frame with an existing file, upload the bytes and insert an
`ai_frames` row (`persistFrame i` is the combined outcome for index `i`);
the first raised error aborts the loop and propagates. -/
def persistFramesLoop (fexists : String → Bool) (persistFrame : ℕ → Except String Unit) :
    List Frame → ℕ → Except String Unit
  | [], _ => .ok ()
  | f :: rest, i =>
    if fexists f.path then
      match persistFrame i with
      | .error e => .error e
      | .ok _ => persistFramesLoop fexists persistFrame rest (i + 1)
    else persistFramesLoop fexists persistFrame rest (i + 1)

/-- Environment of one ai-analyzer-cloud.js `analyzeBugReport` call: the
outcomes of its external effects.  `statuses` is the HTTP response chain
of the video download; `probe` the `ffprobe` duration outcome (the same
file is probed by `getDuration` and inside `extractFrames`); `extract`
the outcome of `extractFrames(videoPath, framesDir, numFrames)`; `sim`
the `compareFrames` similarity; `respond` the per-model inference
outcome; `updateBug` the `UPDATE bugs` query outcome; `persistFrame` the
per-frame upload/insert outcome. -/
structure CloudEnv where
  statuses : List ℕ
  probe : Except String ℚ
  extract : Except String (List Frame)
  sim : String → String → ℚ
  respond : String → Except String String
  fexists : String → Bool
  updateBug : Except String Unit
  persistFrame : ℕ → Except String Unit

/-- Model of the cleanup call on the temp directory: whatever
number of frame files the job wrote under its temp directory, none
remain after cleanup.  Cleanup runs on every exit path of both drivers
(ai-analyzer-cloud.js lines 261, 351, 356; part_005 lines 345, 350). -/
def cleanupDisk (_framesOnDisk : ℕ) : ℕ := 0

/-- Model of `analyzeBugReport` of ai-analyzer-cloud.js lines 178-359.  Returns
the `AnalysisResult` and the number of frame files remaining on disk
after the call.  Any error raised on the way (download, probe,
extraction, persistence) reaches the catch handler, which cleans up and
returns `{ success: false, error: err.message }`.  The prompt and
timeline strings only feed `respond` and are not tracked. -/
def analyzeBugReportCloud (env : CloudEnv) : AnalysisResult × ℕ :=
  match downloadFileCloud env.statuses with
  | .error e => (failResult e, cleanupDisk 0)
  | .ok _ =>
    match env.probe with
    | .error e => (failResult e, cleanupDisk 0)
    | .ok dur =>
      let _numFrames := getFrameCount dur
      match env.extract with
      | .error e => (failResult e, cleanupDisk 0)
      | .ok raw =>
        if raw.length = 0 then
          let r := tryModels env.respond cloudModels
          if truthyStr r.1 then
            match env.updateBug with
            | .error e => (failResult e, cleanupDisk raw.length)
            | .ok _ => (finishResult r.1 r.2, cleanupDisk raw.length)
          else (finishResult r.1 r.2, cleanupDisk raw.length)
        else
          let fr := filterDuplicates env.sim raw
          let toSend := capFrames fr.unique
          let r := tryModels env.respond cloudModels
          if truthyStr r.1 then
            match env.updateBug with
            | .error e => (failResult e, cleanupDisk raw.length)
            | .ok _ =>
              match persistFramesLoop env.fexists env.persistFrame toSend 0 with
              | .error e => (failResult e, cleanupDisk raw.length)
              | .ok _ => (finishResult r.1 r.2, cleanupDisk raw.length)
          else (finishResult r.1 r.2, cleanupDisk raw.length)

/-- Which prompt variant a part_005 job reached: none (failed before
inference), the text-only fallback, or the multimodal prompt with frame
images attached. -/
inductive PromptPath
  | noPrompt
  | textOnly
  | multimodal
deriving DecidableEq, Repr

/-- Environment of one part_005 `analyzeBugReport` call.  The test-context
query (lines 193-203) has its own catch and cannot fail the job, so its
outcome is not tracked.  `probe` is the ffprobe outcome inside
`extractFrames` (part_005 has no separate `getDuration` call in the
driver). -/
structure Env5 where
  statuses : List ℕ
  probe : Except String ℚ
  frameAt : ℤ → Option Frame
  sim : String → String → ℚ
  respond : String → Except String String
  updateBug : Except String Unit

/-- Model of `analyzeBugReport` of part_005 lines 184-353.  Note line 211:
`extractFrames(videoPath, tempDir)` is invoked without the frame-count
argument, so `extractFramesModel` receives `count = none`.  Returns the
result, the frame files remaining on disk, and the prompt path taken. -/
def analyzeBugReport5 (env : Env5) : AnalysisResult × ℕ × PromptPath :=
  match downloadFile5 env.statuses with
  | .error e => (failResult e, cleanupDisk 0, PromptPath.noPrompt)
  | .ok _ =>
    match extractFramesModel env.probe env.frameAt none with
    | .error e => (failResult e, cleanupDisk 0, PromptPath.noPrompt)
    | .ok raw =>
      let pathTaken := if raw.length = 0 then PromptPath.textOnly else PromptPath.multimodal
      let r :=
        if raw.length = 0 then tryModels env.respond models5
        else
          let fr := filterDuplicates env.sim raw
          let _toSend := capFrames fr.unique
          tryModels env.respond models5
      if truthyStr r.1 then
        let _parts := partitionReport ((r.1.getD "").toList)
        match env.updateBug with
        | .error e => (failResult e, cleanupDisk raw.length, pathTaken)
        | .ok _ => (finishResult r.1 r.2, cleanupDisk raw.length, pathTaken)
      else (finishResult r.1 r.2, cleanupDisk raw.length, pathTaken)

/-! ### Concrete scenarios used by witnesses and counterexamples -/

/-- A cloud job whose pipeline succeeds through inference but whose
`UPDATE bugs` query raises. -/
def envC1 : CloudEnv :=
  { statuses := [200]
    probe := .ok 10
    extract := .ok [{ path := "frame_000.jpg", timestamp := 2 }]
    sim := fun _ _ => 0
    respond := fun _ => .ok "## Report"
    fexists := fun _ => true
    updateBug := .error "db connection lost"
    persistFrame := fun _ => .ok () }

/-- A cloud job whose video download answers 404: the cloud `downloadFile`
resolves anyway, and the first error surfaces later from ffprobe on the
garbage file — the HTTP status never reaches the result. -/
def envC2cex : CloudEnv :=
  { statuses := [404]
    probe := .error "Invalid data found when processing input"
    extract := .error "Invalid data found when processing input"
    sim := fun _ _ => 0
    respond := fun _ => .ok "## Report"
    fexists := fun _ => true
    updateBug := .ok ()
    persistFrame := fun _ => .ok () }

/-- A cloud job in which every backend raises `quota exceeded`. -/
def envC5cex : CloudEnv :=
  { statuses := [200]
    probe := .ok 10
    extract := .ok [{ path := "frame_000.jpg", timestamp := 2 }]
    sim := fun _ _ => 0
    respond := fun _ => .error "quota exceeded"
    fexists := fun _ => true
    updateBug := .ok ()
    persistFrame := fun _ => .ok () }

/-- A part_005 job with a clean download and probe. -/
def env5P : Env5 :=
  { statuses := [200]
    probe := .ok 5
    frameAt := fun _ => none
    sim := fun _ _ => 0
    respond := fun _ => .ok "Report text"
    updateBug := .error "db connection lost" }

/-- A part_005 job whose download is redirected once and then answers 404. -/
def env5R : Env5 :=
  { statuses := [301, 404]
    probe := .ok 5
    frameAt := fun _ => none
    sim := fun _ _ => 0
    respond := fun _ => .ok "Report text"
    updateBug := .ok () }

/-- A similarity oracle that reports every pair as identical. -/
def simC100 : String → String → ℚ := fun _ _ => 100

/-- A similarity oracle under which only the frame at path `"b"` differs
from everything else. -/
def simWb : String → String → ℚ := fun _ q => if q = "b" then 0 else 100

/-- A list of 51 frames, enough to engage the volume capper. -/
def frames51 : List Frame :=
  (List.range 51).map (fun i => { path := "", timestamp := (i : ℚ) })

/-- A first retained frame for filter scenarios. -/
def frA : Frame := { path := "a", timestamp := 0 }

/-- Three consecutive duplicates of `frA` (a streak of length 3). -/
def dupsW : List Frame :=
  [{ path := "d1", timestamp := 1 }, { path := "d2", timestamp := 2 },
   { path := "d3", timestamp := 3 }]

/-- A frame that ends the streak (dissimilar under `simWb`). -/
def frB : Frame := { path := "b", timestamp := 4 }

/-- A raw inference text containing the internal delimiter exactly once. -/
def sampleReport : List Char :=
  "A ==== INTERNAL ADMIN VERDICT ==== approve".toList

/-! ## Theorems -/

/-! ### Arithmetic helpers -/

lemma countP_mod_range {k : ℕ} (hk : 0 < k) :
    ∀ n : ℕ, (List.range n).countP (fun i => decide (i % k = 0)) = (n + k - 1) / k := by
  intro n
  induction n with
  | zero => simp [Nat.div_eq_of_lt (show k - 1 < k by omega)]
  | succ n ih =>
    rw [List.range_succ, List.countP_append, ih]
    simp only [List.countP_cons, List.countP_nil, decide_eq_true_eq]
    obtain ⟨q, r, hr, rfl⟩ : ∃ q r, r < k ∧ n = k * q + r :=
      ⟨n / k, n % k, Nat.mod_lt _ hk, (Nat.div_add_mod n k).symm⟩
    have hmul : k * (q + 1) = k * q + k := by ring
    have hmod : (k * q + r) % k = r := by
      rw [Nat.mul_add_mod]; exact Nat.mod_eq_of_lt hr
    by_cases h0 : r = 0
    · subst h0
      rw [if_pos hmod]
      have e1 : k * q + 0 + k - 1 = k * q + (k - 1) := by omega
      have e2 : k * q + 0 + 1 + k - 1 = k * (q + 1) := by omega
      rw [e1, e2, Nat.mul_add_div hk, Nat.div_eq_of_lt (show k - 1 < k by omega),
        Nat.mul_div_cancel_left _ hk]
    · rw [if_neg (fun h => h0 (by rw [hmod] at h; exact h))]
      have e1 : k * q + r + k - 1 = k * (q + 1) + (r - 1) := by omega
      have e2 : k * q + r + 1 + k - 1 = k * (q + 1) + r := by omega
      rw [e1, e2, Nat.mul_add_div hk, Nat.mul_add_div hk,
        Nat.div_eq_of_lt (show r - 1 < k by omega), Nat.div_eq_of_lt hr]

/-- C9: the frame-budget function maps duration d to 10 for d<30, 15 for
30≤d<60, 25 for 60≤d<120, 35 for 120≤d<180, 45 for 180≤d<300, 60 for
300≤d<600 and 80 otherwise; it is non-decreasing in d and equals 80 for
all d ≥ 600. -/
theorem C9_frame_budget :
    (∀ d : ℚ,
      (d < 30 → getFrameCount d = 10) ∧
      (30 ≤ d → d < 60 → getFrameCount d = 15) ∧
      (60 ≤ d → d < 120 → getFrameCount d = 25) ∧
      (120 ≤ d → d < 180 → getFrameCount d = 35) ∧
      (180 ≤ d → d < 300 → getFrameCount d = 45) ∧
      (300 ≤ d → d < 600 → getFrameCount d = 60) ∧
      (600 ≤ d → getFrameCount d = 80)) ∧
    (∀ a b : ℚ, a ≤ b → getFrameCount a ≤ getFrameCount b) := by
  constructor
  · intro d
    refine ⟨?_, ?_, ?_, ?_, ?_, ?_, ?_⟩ <;>
      · intros
        unfold getFrameCount
        split_ifs <;> first | rfl | (exfalso; linarith)
  · intro a b hab
    unfold getFrameCount
    split_ifs <;> first | (exfalso; linarith) | norm_num

/-- C9 witness at concrete durations. -/
theorem C9_witness :
    ((12 : ℚ) < 30 ∧ getFrameCount 12 = 10) ∧
    ((600 : ℚ) ≤ 1000 ∧ getFrameCount 1000 = 80) ∧
    ((45 : ℚ) ≤ 700 ∧ getFrameCount 45 ≤ getFrameCount 700) :=
  ⟨⟨by norm_num, (C9_frame_budget.1 12).1 (by norm_num)⟩,
   ⟨by norm_num, (C9_frame_budget.1 1000).2.2.2.2.2.2 (by norm_num)⟩,
   ⟨by norm_num, C9_frame_budget.2 45 700 (by norm_num)⟩⟩

/-- C6: on a unique-frame list of length n the volume capper is the
identity when n ≤ 50; when n > 50 it keeps exactly the frames at indices
divisible by k = ⌈n/50⌉ in order (a sublist of the input), producing a
list of length ⌈n/k⌉, which is at most 50. -/
theorem C6_volume_capper (l : List Frame) :
    (l.length ≤ 50 → capFrames l = l) ∧
    (50 < l.length →
      capFrames l =
        (l.enum.filter (fun p => p.1 % ((l.length + 49) / 50) = 0)).map Prod.snd ∧
      (capFrames l).length =
        (l.length + (l.length + 49) / 50 - 1) / ((l.length + 49) / 50) ∧
      (capFrames l).length ≤ 50 ∧
      (capFrames l).Sublist l) := by
  constructor
  · intro h
    simp [capFrames, Nat.not_lt.mpr h]
  · intro h
    have hcap : capFrames l =
        (l.enum.filter (fun p => p.1 % ((l.length + 49) / 50) = 0)).map Prod.snd := by
      simp [capFrames, h]
    set k := (l.length + 49) / 50 with hk_def
    have hk : 0 < k := by
      have h2 : 2 ≤ k := (Nat.le_div_iff_mul_le (by norm_num)).mpr (by omega)
      omega
    have hlen : (capFrames l).length = (l.length + k - 1) / k := by
      rw [hcap, List.length_map, ← List.countP_eq_length_filter]
      have hc : l.enum.countP (fun p => decide (p.1 % k = 0)) =
          (List.range l.length).countP (fun i => decide (i % k = 0)) := by
        rw [← List.enum_map_fst l, List.countP_map]
        rfl
      rw [hc, countP_mod_range hk]
    refine ⟨hcap, hlen, ?_, ?_⟩
    · rw [hlen]
      have h50k : l.length ≤ 50 * k := by
        have hmod := Nat.div_add_mod (l.length + 49) 50
        have hlt : (l.length + 49) % 50 < 50 := Nat.mod_lt _ (by norm_num)
        omega
      have hlt51 : (l.length + k - 1) / k < 51 := by
        rw [Nat.div_lt_iff_lt_mul hk]; omega
      omega
    · rw [hcap]
      have h1 := (List.filter_sublist (l := l.enum)
        (p := fun p => decide (p.1 % k = 0))).map Prod.snd
      rwa [List.enum_map_snd] at h1

/-- C6 witness: 51 frames are capped to at most 50. -/
theorem C6_witness :
    50 < frames51.length ∧ (capFrames frames51).length ≤ 50 := by
  have h : 50 < frames51.length := by decide
  exact ⟨h, ((C6_volume_capper frames51).2 h).2.2.1⟩

/-! ### String lemmas for the report partitioner -/

lemma splitFirst_eq_some (d : List Char) :
    ∀ t a b, splitFirst d t = some (a, b) → t = a ++ d ++ b := by
  intro t
  induction t with
  | nil =>
    intro a b h
    rw [splitFirst] at h
    split at h
    · rename_i hp
      obtain ⟨u, hu⟩ := List.isPrefixOf_iff_prefix.mp hp
      obtain ⟨hd, -⟩ := List.append_eq_nil.mp hu
      simp only [Option.some.injEq, Prod.mk.injEq] at h
      obtain ⟨rfl, rfl⟩ := h
      simp [hd]
    · exact absurd h (by simp)
  | cons c cs ih =>
    intro a b h
    rw [splitFirst] at h
    split at h
    · rename_i hp
      obtain ⟨u, hu⟩ := List.isPrefixOf_iff_prefix.mp hp
      simp only [Option.some.injEq, Prod.mk.injEq] at h
      obtain ⟨rfl, rfl⟩ := h
      rw [List.nil_append, ← hu, List.drop_left]
    · cases hs : splitFirst d cs with
      | none => rw [hs] at h; cases h
      | some p =>
        obtain ⟨a1, b1⟩ := p
        rw [hs] at h
        simp only [Option.some.injEq, Prod.mk.injEq] at h
        obtain ⟨rfl, rfl⟩ := h
        simp [ih a1 b1 hs]

lemma splitFirst_append_isSome (d : List Char) :
    ∀ a b, (splitFirst d (a ++ d ++ b)).isSome = true := by
  intro a
  induction a with
  | nil =>
    intro b
    cases hd : d with
    | nil =>
      cases b with
      | nil => decide
      | cons c cs =>
        show (splitFirst [] (c :: cs)).isSome = true
        rw [splitFirst]
        simp [List.isPrefixOf]
    | cons x xs =>
      have hpre : (x :: xs).isPrefixOf (x :: (xs ++ b)) = true := by
        rw [List.isPrefixOf_iff_prefix, ← List.cons_append]
        exact List.prefix_append _ _
      simp only [List.nil_append, List.cons_append]
      rw [splitFirst]
      simp [hpre]
  | cons x a ih =>
    intro b
    simp only [List.cons_append]
    rw [splitFirst]
    split
    · simp
    · cases hs : splitFirst d (a ++ d ++ b) with
      | none =>
        have := ih b
        rw [hs] at this
        cases this
      | some p => simp [hs]

lemma trim_decomp (t : List Char) :
    ∃ w1 w2, (∀ c ∈ w1, isWS c = true) ∧ (∀ c ∈ w2, isWS c = true) ∧
      t = w1 ++ (jsTrim t ++ w2) := by
  refine ⟨t.takeWhile isWS, ((t.dropWhile isWS).reverse.takeWhile isWS).reverse,
    ?_, ?_, ?_⟩
  · intro c hc; exact List.mem_takeWhile_imp hc
  · intro c hc; exact List.mem_takeWhile_imp (List.mem_reverse.mp hc)
  · conv_lhs => rw [← List.takeWhile_append_dropWhile (p := isWS) (l := t)]
    congr 1
    unfold jsTrim
    conv_lhs => rw [← List.reverse_reverse (t.dropWhile isWS),
      ← List.takeWhile_append_dropWhile (p := isWS) (l := (t.dropWhile isWS).reverse)]
    rw [List.reverse_append]

/-- C4 (amended): if the internal delimiter occurs exactly once, the
public report is the trimmed text before it and the internal context the
trimmed text after it, so the original text decomposes as whitespace ++
public ++ whitespace ++ delimiter ++ whitespace ++ internal ++ whitespace;
if the delimiter is absent, the internal context is empty and the public
report is the original text unchanged (the source does not trim on that
path). -/
theorem C4_report_partitioner (t : List Char) :
    (occursOnce DELIM t = true →
      ∃ w1 w2 w3 w4,
        (∀ c ∈ w1, isWS c = true) ∧ (∀ c ∈ w2, isWS c = true) ∧
        (∀ c ∈ w3, isWS c = true) ∧ (∀ c ∈ w4, isWS c = true) ∧
        t = w1 ++ ((partitionReport t).1 ++ (w2 ++ (DELIM ++
            (w3 ++ ((partitionReport t).2 ++ w4)))))) ∧
    (splitFirst DELIM t = none → partitionReport t = (t, [])) := by
  constructor
  · intro h1
    unfold occursOnce at h1
    cases hs : splitFirst DELIM t with
    | none => rw [hs] at h1; cases h1
    | some p =>
      obtain ⟨before, rest⟩ := p
      rw [hs] at h1
      have hrest : splitFirst DELIM rest = none := by
        simpa [Option.isNone_iff_eq_none] using h1
      have hpart : partitionReport t = (jsTrim before, jsTrim rest) := by
        simp [partitionReport, hs, hrest]
      have ht : t = before ++ DELIM ++ rest := splitFirst_eq_some DELIM t before rest hs
      obtain ⟨w1, w2, hw1, hw2, hb⟩ := trim_decomp before
      obtain ⟨w3, w4, hw3, hw4, hr⟩ := trim_decomp rest
      refine ⟨w1, w2, w3, w4, hw1, hw2, hw3, hw4, ?_⟩
      rw [hpart]
      conv_lhs => rw [ht, hb, hr]
      simp [List.append_assoc]
  · intro h
    simp [partitionReport, h]

/-- C4 counterexample: with no delimiter present the public report is the
original text verbatim, not the trimmed text the claim asserts
(`" hello "` stays `" hello "`, while its trim is `"hello"`). -/
theorem C4_cex_no_trim_without_delim :
    (partitionReport (" hello ".toList)).1 ≠ jsTrim (" hello ".toList) := by decide

/-- C4 witness at a concrete report containing the delimiter once. -/
theorem C4_witness :
    occursOnce DELIM sampleReport = true ∧
    (∃ w1 w2 w3 w4,
        (∀ c ∈ w1, isWS c = true) ∧ (∀ c ∈ w2, isWS c = true) ∧
        (∀ c ∈ w3, isWS c = true) ∧ (∀ c ∈ w4, isWS c = true) ∧
        sampleReport = w1 ++ ((partitionReport sampleReport).1 ++ (w2 ++ (DELIM ++
            (w3 ++ ((partitionReport sampleReport).2 ++ w4)))))) :=
  ⟨by decide, (C4_report_partitioner sampleReport).1 (by decide)⟩

/-! ### Download status handling -/

lemma downloadFile5_chain (s : ℕ) (hs : ¬(s = 301 ∨ s = 302)) :
    ∀ reds, (∀ r ∈ reds, r = 301 ∨ r = 302) →
      downloadFile5 (reds ++ [s]) =
        if s ≠ 200 then .error ("HTTP " ++ toString s ++ " downloading video")
        else .ok () := by
  intro reds
  induction reds with
  | nil => intro _; simp [downloadFile5, hs]
  | cons r rs ih =>
    intro hr
    have hr0 : r = 301 ∨ r = 302 := hr r (by simp)
    have hstep : downloadFile5 ((r :: rs) ++ [s]) = downloadFile5 (rs ++ [s]) := by
      cases rs with
      | nil => simp [downloadFile5, hr0]
      | cons a as => simp [downloadFile5, hr0]
    rw [hstep, ih (fun x hx => hr x (by simp [hx]))]

lemma downloadFileCloud_chain (s : ℕ) (hs : ¬(s = 301 ∨ s = 302)) :
    ∀ reds, (∀ r ∈ reds, r = 301 ∨ r = 302) →
      downloadFileCloud (reds ++ [s]) = .ok () := by
  intro reds
  induction reds with
  | nil => intro _; simp [downloadFileCloud, hs]
  | cons r rs ih =>
    intro hr
    have hr0 : r = 301 ∨ r = 302 := hr r (by simp)
    have hstep : downloadFileCloud ((r :: rs) ++ [s]) = downloadFileCloud (rs ++ [s]) := by
      cases rs with
      | nil => simp [downloadFileCloud, hr0]
      | cons a as => simp [downloadFileCloud, hr0]
    rw [hstep, ih (fun x hx => hr x (by simp [hx]))]

/-- C2 (amended): in the part_005 variant a download chain ending in a
non-redirect status other than 200 rejects with
`HTTP <status> downloading video`; the job then fails with exactly that
message (which contains the numeric status code), never reaches a prompt,
and leaves no frame files on disk.  In the ai-analyzer-cloud.js variant
`downloadFile` has no status check and resolves for every non-redirect
status, so that variant does not satisfy the claim. -/
theorem C2_download_status (env : Env5) (reds : List ℕ) (s : ℕ)
    (hchain : env.statuses = reds ++ [s])
    (hreds : ∀ r ∈ reds, r = 301 ∨ r = 302)
    (hs : ¬(s = 301 ∨ s = 302)) (h200 : s ≠ 200) :
    analyzeBugReport5 env =
      (failResult ("HTTP " ++ toString s ++ " downloading video"), 0, PromptPath.noPrompt) ∧
    containsSub (toString s).toList
      ("HTTP " ++ toString s ++ " downloading video").toList = true ∧
    (∀ reds2 s2, ¬(s2 = 301 ∨ s2 = 302) → (∀ r ∈ reds2, r = 301 ∨ r = 302) →
      downloadFileCloud (reds2 ++ [s2]) = .ok ()) := by
  refine ⟨?_, ?_, fun reds2 s2 h1 h2 => downloadFileCloud_chain s2 h1 reds2 h2⟩
  · have hdl := downloadFile5_chain s hs reds hreds
    rw [if_pos h200] at hdl
    simp [analyzeBugReport5, hchain, hdl, cleanupDisk]
  · exact splitFirst_append_isSome (toString s).toList "HTTP ".toList " downloading video".toList

/-- C2 counterexample: a cloud job whose download answers 404.  The cloud
`downloadFile` resolves anyway; the job fails only later at ffprobe with
an error that does not mention the HTTP status, contradicting the claim
that the error mentions the status code. -/
theorem C2_cex_cloud_ignores_status :
    analyzeBugReportCloud envC2cex =
      (failResult "Invalid data found when processing input", 0) ∧
    containsSub "404".toList "Invalid data found when processing input".toList = false := by
  constructor
  · decide
  · decide

/-- C2 witness: one redirect followed by a 404 in the part_005 variant. -/
theorem C2_witness :
    env5R.statuses = [301] ++ [404] ∧
    analyzeBugReport5 env5R =
      (failResult ("HTTP " ++ toString 404 ++ " downloading video"), 0, PromptPath.noPrompt) :=
  ⟨rfl, (C2_download_status env5R [301] 404 rfl (by decide) (by decide) (by decide)).1⟩

/-! ### Inference loop lemmas -/

lemma tryModels_all_fail (respond : String → Except String String) :
    ∀ ms : List String, (∀ m ∈ ms, ∃ e, respond m = .error e) →
      tryModels respond ms = (none, none) := by
  intro ms
  induction ms with
  | nil => intro _; rfl
  | cons m rest ih =>
    intro h
    obtain ⟨e, he⟩ := h m (by simp)
    simp only [tryModels, he]
    exact ih (fun x hx => h x (by simp [hx]))

lemma tryGemini7_all_fail (respond : String → Except String String) (n : ℕ) (hn : n ≠ 0) :
    ∀ (ms : List String) (le mL eL : String),
      (∀ m ∈ ms, ∃ e, respond m = .error e) →
      ms.getLast? = some mL → respond mL = .error eL →
      tryGemini7 respond n ms le =
        { success := false, error := some ("All models failed: " ++ eL) } := by
  intro ms
  induction ms with
  | nil => intro le mL eL _ h _; cases h
  | cons m rest ih =>
    intro le mL eL hall hlast hresp
    obtain ⟨e, he⟩ := hall m (by simp)
    cases rest with
    | nil =>
      have hm : m = mL := by simpa using hlast
      subst hm
      rw [he] at hresp
      obtain rfl : e = eL := by simpa using hresp
      simp [tryGemini7, hn, he]
    | cons r2 rest2 =>
      rw [List.getLast?_cons_cons] at hlast
      have hstep : tryGemini7 respond n (m :: r2 :: rest2) le =
          tryGemini7 respond n (r2 :: rest2) e := by
        simp [tryGemini7, hn, he]
      rw [hstep]
      exact ih e mL eL (fun x hx => hall x (by simp [hx])) hlast hresp

lemma extractFramesModel_none_ok (probe : Except String ℚ) (fa : ℤ → Option Frame) :
    ∀ raw, extractFramesModel probe fa none = .ok raw → raw = [] := by
  intro raw h
  cases probe with
  | error e => simp [extractFramesModel] at h
  | ok dur =>
    by_cases hd : dur = 0 <;> simp [extractFramesModel, candidateTimes, hd] at h
    exact h

/-- C10: in the part_005 variant the driver calls `extractFrames` without
the frame-count argument (line 211); with `count` undefined the candidate
timestamp list is empty, so `extractFrames` resolves to the empty list
whenever its probe succeeds with a nonzero duration; consequently no job
in this variant ever takes the multimodal prompt path, and every job
whose download and probe succeed takes the text-only prompt path. -/
theorem C10_part005_text_only :
    (∀ dur : ℚ, candidateTimes dur none = []) ∧
    (∀ (fa : ℤ → Option Frame) (dur : ℚ), dur ≠ 0 →
      extractFramesModel (.ok dur) fa none = .ok []) ∧
    (∀ env : Env5, (analyzeBugReport5 env).2.2 ≠ PromptPath.multimodal) ∧
    (∀ (env : Env5) (dur : ℚ), env.probe = .ok dur → dur ≠ 0 →
      downloadFile5 env.statuses = .ok () →
      (analyzeBugReport5 env).2.2 = PromptPath.textOnly) := by
  refine ⟨fun _ => rfl, ?_, ?_, ?_⟩
  · intro fa dur hd
    simp [extractFramesModel, candidateTimes, hd]
  · intro env
    unfold analyzeBugReport5
    cases hdl : downloadFile5 env.statuses with
    | error e => simp
    | ok u =>
      cases hex : extractFramesModel env.probe env.frameAt none with
      | error e => simp
      | ok raw =>
        have hraw : raw = [] := extractFramesModel_none_ok env.probe env.frameAt raw hex
        subst hraw
        by_cases ht : truthyStr (tryModels env.respond models5).1 = true
        · cases hu : env.updateBug <;> simp [ht, hu]
        · simp [ht]
  · intro env dur hp hd hdl
    have hex : extractFramesModel env.probe env.frameAt none = .ok [] := by
      rw [hp]
      simp [extractFramesModel, candidateTimes, hd]
    unfold analyzeBugReport5
    rw [hdl, hex]
    by_cases ht : truthyStr (tryModels env.respond models5).1 = true
    · cases hu : env.updateBug <;> simp [ht, hu]
    · simp [ht]

/-- C10 witness at a part_005 environment with a clean download and a
5-second probe. -/
theorem C10_witness :
    env5P.probe = .ok 5 ∧ (5 : ℚ) ≠ 0 ∧ downloadFile5 env5P.statuses = .ok () ∧
    (analyzeBugReport5 env5P).2.2 = PromptPath.textOnly :=
  ⟨rfl, by norm_num, rfl, C10_part005_text_only.2.2.2 env5P 5 rfl (by norm_num) rfl⟩

/-- C1 (amended): an error raised while persisting an analysis that some
backend produced (the `UPDATE bugs` query or the per-frame upload/insert
loop) propagates to the driver's catch handler, which returns
`success=false` with the persistence error's message — it is not merely
logged; cleanup still runs, so no frame files remain on disk. -/
theorem C1_persistence_error_propagates
    (env : CloudEnv) (dur : ℚ) (raw : List Frame) (text : String) (mdl : Option String)
    (hdl : downloadFileCloud env.statuses = .ok ())
    (hprobe : env.probe = .ok dur)
    (hex : env.extract = .ok raw)
    (hraw : raw.length ≠ 0)
    (htry : tryModels env.respond cloudModels = (some text, mdl))
    (htext : text ≠ "") :
    (∀ e, env.updateBug = .error e → analyzeBugReportCloud env = (failResult e, 0)) ∧
    (∀ e, env.updateBug = .ok () →
      persistFramesLoop env.fexists env.persistFrame
        (capFrames (filterDuplicates env.sim raw).unique) 0 = .error e →
      analyzeBugReportCloud env = (failResult e, 0)) := by
  have htruthy : truthyStr (tryModels env.respond cloudModels).1 = true := by
    rw [htry]; simp [truthyStr, htext]
  constructor
  · intro e he
    simp [analyzeBugReportCloud, hdl, hprobe, hex, hraw, htruthy, he, cleanupDisk]
  · intro e hu hp
    simp [analyzeBugReportCloud, hdl, hprobe, hex, hraw, htruthy, hu, hp, cleanupDisk]

/-- C1 counterexample: a job whose first backend returns non-empty text
but whose `UPDATE bugs` query raises.  The claim says the result is still
`success=true` with the backend's text; the code returns `success=false`
carrying the persistence error. -/
theorem C1_cex_persistence_flips_success :
    analyzeBugReportCloud envC1 = (failResult "db connection lost", 0) := by decide

/-- C1 witness instantiating the amended theorem at `envC1`. -/
theorem C1_witness :
    downloadFileCloud envC1.statuses = .ok () ∧
    envC1.updateBug = .error "db connection lost" ∧
    analyzeBugReportCloud envC1 = (failResult "db connection lost", 0) :=
  ⟨rfl, rfl,
    (C1_persistence_error_propagates envC1 10 [{ path := "frame_000.jpg", timestamp := 2 }]
      "## Report" (some "models/gemini-2.5-flash") rfl rfl rfl (by decide) rfl
      (by decide)).1 "db connection lost" rfl⟩

/-- C5 (amended): when every backend raises, both variants return
`success=false` with no model identifier; but only the part_007
orchestrator's error carries the last backend's failure text
(`'All models failed: ' + lastError`) — the cloud/part_005 driver returns
the fixed message `'All models failed'` without it. -/
theorem C5_all_backends_fail :
    (∀ (fexists : String → Bool) (respond : String → Except String String)
        (frames : List Frame) (eLast : String),
      (∀ m ∈ geminiModels7, ∃ e, respond m = .error e) →
      respond "models/gemini-pro-vision" = .error eLast →
      (frames.filter (fun f => fexists f.path)).length ≠ 0 →
      analyzeWithGemini true fexists respond frames =
        { success := false, error := some ("All models failed: " ++ eLast) } ∧
      containsSub eLast.toList ("All models failed: " ++ eLast).toList = true) ∧
    (∀ (env : CloudEnv) (dur : ℚ) (raw : List Frame),
      downloadFileCloud env.statuses = .ok () →
      env.probe = .ok dur → env.extract = .ok raw →
      (∀ m ∈ cloudModels, ∃ e, env.respond m = .error e) →
      (analyzeBugReportCloud env).1 =
        { success := false, analysis := none, model := none,
          error := some "All models failed" }) := by
  constructor
  · intro fexists respond frames eLast hall hlastr hcount
    constructor
    · show tryGemini7 respond _ geminiModels7 "" = _
      exact tryGemini7_all_fail respond _ hcount geminiModels7 ""
        "models/gemini-pro-vision" eLast hall rfl hlastr
    · have h := splitFirst_append_isSome eLast.toList "All models failed: ".toList []
      rwa [List.append_nil] at h
  · intro env dur raw hdl hprobe hex hall
    have htm := tryModels_all_fail env.respond cloudModels hall
    by_cases hr : raw.length = 0 <;>
      simp [analyzeBugReportCloud, hdl, hprobe, hex, hr, htm, truthyStr,
        finishResult, cleanupDisk]

/-- C5 counterexample: all three cloud backends raise `quota exceeded`;
the returned error is the constant `All models failed`, which does not
contain the backend's failure text. -/
theorem C5_cex_cloud_error_constant :
    (analyzeBugReportCloud envC5cex).1 =
      { success := false, analysis := none, model := none,
        error := some "All models failed" } ∧
    containsSub "quota exceeded".toList "All models failed".toList = false := by
  constructor
  · decide
  · decide

/-! ### Duplicate-filter step characterizations and loop invariants -/

lemma foldl_pres {σ α : Type _} (f : σ → α → σ) (P : σ → Prop)
    (hstep : ∀ s a, P s → P (f s a)) :
    ∀ (l : List α) (s : σ), P s → P (l.foldl f s) := by
  intro l
  induction l with
  | nil => intro s h; exact h
  | cons a as ih => intro s h; exact ih _ (hstep s a h)

lemma filterStep_nil (sim : String → String → ℚ) (s : FilterState) (c : Frame)
    (h : s.uniqueRev = []) : filterStep sim s c = s := by
  unfold filterStep; rw [h]

lemma filterStep_skip (sim : String → String → ℚ) (s : FilterState) (c last : Frame)
    (restRev : List Frame) (h : s.uniqueRev = last :: restRev)
    (hsim : ¬ sim last.path c.path < 85) :
    filterStep sim s c =
      { s with removed := s.removed + 1, streak := s.streak + 1, prev := c } := by
  unfold filterStep; rw [h]; simp [hsim]

lemma filterStep_retain (sim : String → String → ℚ) (s : FilterState) (c last : Frame)
    (restRev : List Frame) (h : s.uniqueRev = last :: restRev)
    (hsim : sim last.path c.path < 85) :
    filterStep sim s c =
      { uniqueRev := c ::
          (if s.streak > 2 then
            { last with frozenDuration := some (jsRound (s.prev.timestamp - last.timestamp)) }
          else last) :: restRev
        removed := s.removed
        freezes := if s.streak > 2 then s.freezes + 1 else s.freezes
        streak := 0
        prev := c } := by
  unfold filterStep
  rw [h]
  by_cases hst : s.streak > 2 <;> simp [hsim, hst]

lemma filterStep7_nil (sim : String → String → ℚ) (θ : ℚ) (s : FilterState7) (c : Frame)
    (h : s.uniqueRev = []) : filterStep7 sim θ s c = s := by
  unfold filterStep7; rw [h]

lemma filterStep7_skip (sim : String → String → ℚ) (θ : ℚ) (s : FilterState7) (c last : Frame)
    (restRev : List Frame) (h : s.uniqueRev = last :: restRev)
    (hsim : ¬ sim last.path c.path < θ) :
    filterStep7 sim θ s c =
      { s with duplicatesRemoved := s.duplicatesRemoved + 1,
               currentStreak := s.currentStreak + 1, prev := c } := by
  unfold filterStep7; rw [h]; simp [hsim]

lemma filterStep7_retain (sim : String → String → ℚ) (θ : ℚ) (s : FilterState7) (c last : Frame)
    (restRev : List Frame) (h : s.uniqueRev = last :: restRev)
    (hsim : sim last.path c.path < θ) :
    filterStep7 sim θ s c =
      { uniqueRev := c ::
          (if s.currentStreak > 2 then
            { last with frozenDuration := some (jsRound (s.prev.timestamp - s.streakStartTime)) }
          else last) :: restRev
        duplicatesRemoved := s.duplicatesRemoved
        frozenStreaks := if s.currentStreak > 2 then s.frozenStreaks + 1 else s.frozenStreaks
        currentStreak := 0
        streakStartTime := c.timestamp
        prev := c } := by
  unfold filterStep7
  rw [h]
  by_cases hst : s.currentStreak > 2 <;> simp [hsim, hst]

lemma foldl_skips (sim : String → String → ℚ) (dups : List Frame) :
    ∀ (s : FilterState) (last : Frame) (restRev : List Frame),
      s.uniqueRev = last :: restRev →
      (∀ d ∈ dups, ¬ sim last.path d.path < 85) →
      (dups.foldl (filterStep sim) s).uniqueRev = s.uniqueRev ∧
      (dups.foldl (filterStep sim) s).removed = s.removed + dups.length ∧
      (dups.foldl (filterStep sim) s).freezes = s.freezes ∧
      (dups.foldl (filterStep sim) s).streak = s.streak + dups.length ∧
      (dups.foldl (filterStep sim) s).prev = dups.getLastD s.prev := by
  induction dups with
  | nil => intro s last restRev _ _; simp [List.getLastD_nil]
  | cons d ds ih =>
    intro s last restRev h hall
    have hd := hall d (by simp)
    rw [List.foldl_cons, filterStep_skip sim s d last restRev h hd]
    obtain ⟨h1, h2, h3, h4, h5⟩ :=
      ih { s with removed := s.removed + 1, streak := s.streak + 1, prev := d }
        last restRev h (fun x hx => hall x (by simp [hx]))
    refine ⟨by simpa using h1, ?_, by simpa using h3, ?_, ?_⟩
    · rw [h2]; simp; try omega
    · rw [h4]; simp; try omega
    · rw [h5, List.getLastD_cons]

lemma foldl_skips7 (sim : String → String → ℚ) (θ : ℚ) (dups : List Frame) :
    ∀ (s : FilterState7) (last : Frame) (restRev : List Frame),
      s.uniqueRev = last :: restRev →
      (∀ d ∈ dups, ¬ sim last.path d.path < θ) →
      (dups.foldl (filterStep7 sim θ) s).uniqueRev = s.uniqueRev ∧
      (dups.foldl (filterStep7 sim θ) s).duplicatesRemoved
        = s.duplicatesRemoved + dups.length ∧
      (dups.foldl (filterStep7 sim θ) s).frozenStreaks = s.frozenStreaks ∧
      (dups.foldl (filterStep7 sim θ) s).currentStreak = s.currentStreak + dups.length ∧
      (dups.foldl (filterStep7 sim θ) s).streakStartTime = s.streakStartTime ∧
      (dups.foldl (filterStep7 sim θ) s).prev = dups.getLastD s.prev := by
  induction dups with
  | nil => intro s last restRev _ _; simp [List.getLastD_nil]
  | cons d ds ih =>
    intro s last restRev h hall
    have hd := hall d (by simp)
    rw [List.foldl_cons, filterStep7_skip sim θ s d last restRev h hd]
    obtain ⟨h1, h2, h3, h4, h5, h6⟩ :=
      ih { s with duplicatesRemoved := s.duplicatesRemoved + 1,
                  currentStreak := s.currentStreak + 1, prev := d }
        last restRev h (fun x hx => hall x (by simp [hx]))
    refine ⟨by simpa using h1, ?_, by simpa using h3, ?_, by simpa using h5, ?_⟩
    · rw [h2]; simp; try omega
    · rw [h4]; simp; try omega
    · rw [h6, List.getLastD_cons]

lemma foldl_tail_pres (sim : String → String → ℚ) :
    ∀ (l : List Frame) (s : FilterState) (x : Frame) (rev : List Frame),
      s.uniqueRev = x :: rev →
      ∃ front, front ≠ [] ∧ (l.foldl (filterStep sim) s).uniqueRev = front ++ rev := by
  intro l
  induction l with
  | nil => intro s x rev h; exact ⟨[x], by simp, by simp [h]⟩
  | cons c cs ih =>
    intro s x rev h
    rw [List.foldl_cons]
    by_cases hsim : sim x.path c.path < 85
    · rw [filterStep_retain sim s c x rev h hsim]
      obtain ⟨f, hf, hfe⟩ := ih
        { uniqueRev := c ::
            (if s.streak > 2 then
              { x with frozenDuration := some (jsRound (s.prev.timestamp - x.timestamp)) }
            else x) :: rev
          removed := s.removed
          freezes := if s.streak > 2 then s.freezes + 1 else s.freezes
          streak := 0
          prev := c } c
        ((if s.streak > 2 then
            { x with frozenDuration := some (jsRound (s.prev.timestamp - x.timestamp)) }
          else x) :: rev) rfl
      exact ⟨f ++ [(if s.streak > 2 then
            { x with frozenDuration := some (jsRound (s.prev.timestamp - x.timestamp)) }
          else x)], by simp, by rw [hfe]; simp⟩
    · rw [filterStep_skip sim s c x rev h hsim]
      exact ih _ x rev h

lemma foldl_tail_pres7 (sim : String → String → ℚ) (θ : ℚ) :
    ∀ (l : List Frame) (s : FilterState7) (x : Frame) (rev : List Frame),
      s.uniqueRev = x :: rev →
      ∃ front, front ≠ [] ∧ (l.foldl (filterStep7 sim θ) s).uniqueRev = front ++ rev := by
  intro l
  induction l with
  | nil => intro s x rev h; exact ⟨[x], by simp, by simp [h]⟩
  | cons c cs ih =>
    intro s x rev h
    rw [List.foldl_cons]
    by_cases hsim : sim x.path c.path < θ
    · rw [filterStep7_retain sim θ s c x rev h hsim]
      obtain ⟨f, hf, hfe⟩ := ih
        { uniqueRev := c ::
            (if s.currentStreak > 2 then
              { x with frozenDuration := some (jsRound (s.prev.timestamp - s.streakStartTime)) }
            else x) :: rev
          duplicatesRemoved := s.duplicatesRemoved
          frozenStreaks := if s.currentStreak > 2 then s.frozenStreaks + 1 else s.frozenStreaks
          currentStreak := 0
          streakStartTime := c.timestamp
          prev := c } c
        ((if s.currentStreak > 2 then
            { x with frozenDuration := some (jsRound (s.prev.timestamp - s.streakStartTime)) }
          else x) :: rev) rfl
      exact ⟨f ++ [(if s.currentStreak > 2 then
            { x with frozenDuration := some (jsRound (s.prev.timestamp - s.streakStartTime)) }
          else x)], by simp, by rw [hfe]; simp⟩
    · rw [filterStep7_skip sim θ s c x rev h hsim]
      exact ih _ x rev h

/-- The `streakStartTime` of the part_007 loop is always the timestamp of
the most recently retained frame. -/
lemma streakStart_inv7 (sim : String → String → ℚ) (θ : ℚ) (l : List Frame)
    (s : FilterState7)
    (h0 : ∀ x rev, s.uniqueRev = x :: rev → s.streakStartTime = x.timestamp) :
    ∀ x rev, (l.foldl (filterStep7 sim θ) s).uniqueRev = x :: rev →
      (l.foldl (filterStep7 sim θ) s).streakStartTime = x.timestamp := by
  refine foldl_pres (filterStep7 sim θ)
    (fun t => ∀ x rev, t.uniqueRev = x :: rev → t.streakStartTime = x.timestamp)
    ?_ l s h0
  intro t c ht x rev hx
  cases hu : t.uniqueRev with
  | nil =>
    rw [filterStep7_nil sim θ t c hu] at hx ⊢
    exact ht x rev hx
  | cons last restRev =>
    by_cases hsim : sim last.path c.path < θ
    · rw [filterStep7_retain sim θ t c last restRev hu hsim] at hx ⊢
      obtain ⟨rfl, -⟩ := List.cons.inj hx
      rfl
    · rw [filterStep7_skip sim θ t c last restRev hu hsim] at hx ⊢
      exact ht x rev hx

lemma markFrozenHead_cons (f : Frame) (l : List Frame) (d : ℤ) :
    markFrozenHead (f :: l) d = { f with frozenDuration := some d } :: l := rfl

lemma stripFrozen_mark (f : Frame) (v : Option ℤ) :
    stripFrozen { f with frozenDuration := v } = stripFrozen f := rfl

lemma getLastD_mem {α : Type _} : ∀ (l : List α) (x : α), l ≠ [] → l.getLastD x ∈ l := by
  intro l
  induction l with
  | nil => intro x h; exact absurd rfl h
  | cons y ys ih =>
    intro x _
    rw [List.getLastD_cons]
    cases ys with
    | nil => simp [List.getLastD_nil]
    | cons z zs => exact List.mem_cons_of_mem y (ih y (by simp))

lemma filterDuplicates_cons (sim : String → String → ℚ) (f0 : Frame)
    (l : List Frame) (hl : l ≠ []) :
    filterDuplicates sim (f0 :: l) =
      ⟨(filterCore sim f0 l).uniqueRev.reverse, (filterCore sim f0 l).removed,
       if (filterCore sim f0 l).streak > 2 then (filterCore sim f0 l).freezes + 1
       else (filterCore sim f0 l).freezes⟩ := by
  cases l with
  | nil => exact absurd rfl hl
  | cons a as => rfl

lemma filterDuplicateFrames_cons (sim : String → String → ℚ) (θ : ℚ) (f0 : Frame)
    (l : List Frame) (hl : l ≠ []) :
    filterDuplicateFrames sim θ (f0 :: l) =
      (let s := filterCore7 sim θ f0 l
       let uniqueRev :=
         if s.currentStreak > 2 then
           markFrozenHead s.uniqueRev (jsRound (s.prev.timestamp - s.streakStartTime))
         else s.uniqueRev
       let uniqueRev2 :=
         match uniqueRev with
         | [] => uniqueRev
         | lastUnique :: _ =>
           if s.prev.path ≠ lastUnique.path ∧ sim lastUnique.path s.prev.path < θ then
             s.prev :: uniqueRev
           else uniqueRev
       uniqueRev2.reverse) := by
  cases l with
  | nil => exact absurd rfl hl
  | cons a as => rfl

lemma step7_keep_inv (sim : String → String → ℚ) (θ : ℚ) (s : FilterState7) (c : Frame)
    (h : (s.currentStreak = 0 → s.uniqueRev.head? = some s.prev) ∧
         (s.currentStreak ≠ 0 → ∀ lu, s.uniqueRev.head? = some lu →
            ¬ sim lu.path s.prev.path < θ)) :
    ((filterStep7 sim θ s c).currentStreak = 0 →
        (filterStep7 sim θ s c).uniqueRev.head? = some (filterStep7 sim θ s c).prev) ∧
    ((filterStep7 sim θ s c).currentStreak ≠ 0 →
        ∀ lu, (filterStep7 sim θ s c).uniqueRev.head? = some lu →
          ¬ sim lu.path (filterStep7 sim θ s c).prev.path < θ) := by
  cases hu : s.uniqueRev with
  | nil => rw [filterStep7_nil sim θ s c hu]; exact h
  | cons last restRev =>
    by_cases hsim : sim last.path c.path < θ
    · rw [filterStep7_retain sim θ s c last restRev hu hsim]
      exact ⟨fun _ => rfl, fun h0 => absurd rfl h0⟩
    · rw [filterStep7_skip sim θ s c last restRev hu hsim]
      refine ⟨fun h0 => absurd h0 (by simp), fun _ lu hlu => ?_⟩
      have : lu = last := by
        have hlu2 : (last :: restRev).head? = some lu := by rw [← hu]; exact hlu
        simpa using hlu2.symm
      subst this
      exact hsim

lemma step_last_strip (sim : String → String → ℚ) (t : Frame) (s : FilterState) (c : Frame)
    (h : ∃ g, s.uniqueRev.getLast? = some g ∧ stripFrozen g = stripFrozen t) :
    ∃ g, (filterStep sim s c).uniqueRev.getLast? = some g ∧
      stripFrozen g = stripFrozen t := by
  obtain ⟨g, hg, hgs⟩ := h
  cases hu : s.uniqueRev with
  | nil => rw [hu] at hg; cases hg
  | cons last restRev =>
    by_cases hsim : sim last.path c.path < 85
    · rw [filterStep_retain sim s c last restRev hu hsim]
      cases hrr : restRev with
      | nil =>
        subst hrr
        rw [hu] at hg
        have hgl : last = g := by simpa using hg
        subst hgl
        refine ⟨(if s.streak > 2 then
            { last with frozenDuration := some (jsRound (s.prev.timestamp - last.timestamp)) }
          else last), by simp [List.getLast?_cons_cons], ?_⟩
        by_cases hst : s.streak > 2 <;> simp [hst, stripFrozen_mark, hgs]
      | cons r rs =>
        subst hrr
        rw [hu, List.getLast?_cons_cons] at hg
        refine ⟨g, ?_, hgs⟩
        show (c :: _ :: r :: rs).getLast? = some g
        rw [List.getLast?_cons_cons, List.getLast?_cons_cons]
        exact hg
    · rw [filterStep_skip sim s c last restRev hu hsim]
      exact ⟨g, hg, hgs⟩

lemma step7_last_strip (sim : String → String → ℚ) (θ : ℚ) (t : Frame)
    (s : FilterState7) (c : Frame)
    (h : ∃ g, s.uniqueRev.getLast? = some g ∧ stripFrozen g = stripFrozen t) :
    ∃ g, (filterStep7 sim θ s c).uniqueRev.getLast? = some g ∧
      stripFrozen g = stripFrozen t := by
  obtain ⟨g, hg, hgs⟩ := h
  cases hu : s.uniqueRev with
  | nil => rw [hu] at hg; cases hg
  | cons last restRev =>
    by_cases hsim : sim last.path c.path < θ
    · rw [filterStep7_retain sim θ s c last restRev hu hsim]
      cases hrr : restRev with
      | nil =>
        subst hrr
        rw [hu] at hg
        have hgl : last = g := by simpa using hg
        subst hgl
        refine ⟨(if s.currentStreak > 2 then
            { last with frozenDuration := some (jsRound (s.prev.timestamp - s.streakStartTime)) }
          else last), by simp [List.getLast?_cons_cons], ?_⟩
        by_cases hst : s.currentStreak > 2 <;> simp [hst, stripFrozen_mark, hgs]
      | cons r rs =>
        subst hrr
        rw [hu, List.getLast?_cons_cons] at hg
        refine ⟨g, ?_, hgs⟩
        show (c :: _ :: r :: rs).getLast? = some g
        rw [List.getLast?_cons_cons, List.getLast?_cons_cons]
        exact hg
    · rw [filterStep7_skip sim θ s c last restRev hu hsim]
      exact ⟨g, hg, hgs⟩

lemma markFrozenHead_length (l : List Frame) (d : ℤ) :
    (markFrozenHead l d).length = l.length := by
  cases l <;> simp [markFrozenHead]

lemma markFrozenHead_last_strip (t : Frame) (l : List Frame) (d : ℤ)
    (h : ∃ g, l.getLast? = some g ∧ stripFrozen g = stripFrozen t) :
    ∃ g, (markFrozenHead l d).getLast? = some g ∧ stripFrozen g = stripFrozen t := by
  obtain ⟨g, hg, hgs⟩ := h
  cases l with
  | nil => cases hg
  | cons f rest =>
    rw [markFrozenHead_cons]
    cases rest with
    | nil =>
      have hgf : f = g := by simpa using hg
      subst hgf
      exact ⟨{ f with frozenDuration := some d }, by simp, by rw [stripFrozen_mark]; exact hgs⟩
    | cons r rs =>
      rw [List.getLast?_cons_cons] at hg ⊢
      exact ⟨g, hg, hgs⟩

lemma filterStep_len (sim : String → String → ℚ) (s : FilterState) (c : Frame) :
    (filterStep sim s c).uniqueRev.length ≤ s.uniqueRev.length + 1 := by
  cases hu : s.uniqueRev with
  | nil => rw [filterStep_nil sim s c hu, hu]; simp
  | cons last restRev =>
    by_cases hsim : sim last.path c.path < 85
    · rw [filterStep_retain sim s c last restRev hu hsim]; simp
    · rw [filterStep_skip sim s c last restRev hu hsim]; simp [hu]

lemma filterStep7_len (sim : String → String → ℚ) (θ : ℚ) (s : FilterState7) (c : Frame) :
    (filterStep7 sim θ s c).uniqueRev.length ≤ s.uniqueRev.length + 1 := by
  cases hu : s.uniqueRev with
  | nil => rw [filterStep7_nil sim θ s c hu, hu]; simp
  | cons last restRev =>
    by_cases hsim : sim last.path c.path < θ
    · rw [filterStep7_retain sim θ s c last restRev hu hsim]; simp
    · rw [filterStep7_skip sim θ s c last restRev hu hsim]; simp [hu]

lemma foldl_len (sim : String → String → ℚ) :
    ∀ (l : List Frame) (s : FilterState),
      (l.foldl (filterStep sim) s).uniqueRev.length ≤ s.uniqueRev.length + l.length := by
  intro l
  induction l with
  | nil => intro s; simp
  | cons c cs ih =>
    intro s
    rw [List.foldl_cons]
    have h1 := ih (filterStep sim s c)
    have h2 := filterStep_len sim s c
    simp only [List.length_cons]
    omega

lemma foldl_len7 (sim : String → String → ℚ) (θ : ℚ) :
    ∀ (l : List Frame) (s : FilterState7),
      (l.foldl (filterStep7 sim θ) s).uniqueRev.length ≤ s.uniqueRev.length + l.length := by
  intro l
  induction l with
  | nil => intro s; simp
  | cons c cs ih =>
    intro s
    rw [List.foldl_cons]
    have h1 := ih (filterStep7 sim θ s c)
    have h2 := filterStep7_len sim θ s c
    simp only [List.length_cons]
    omega

lemma filterCore7_keepQ (sim : String → String → ℚ) (θ : ℚ) (f0 : Frame) (l : List Frame) :
    ((filterCore7 sim θ f0 l).currentStreak = 0 →
      (filterCore7 sim θ f0 l).uniqueRev.head? = some (filterCore7 sim θ f0 l).prev) ∧
    ((filterCore7 sim θ f0 l).currentStreak ≠ 0 →
      ∀ lu, (filterCore7 sim θ f0 l).uniqueRev.head? = some lu →
        ¬ sim lu.path (filterCore7 sim θ f0 l).prev.path < θ) := by
  refine foldl_pres (filterStep7 sim θ)
    (fun t => (t.currentStreak = 0 → t.uniqueRev.head? = some t.prev) ∧
      (t.currentStreak ≠ 0 → ∀ lu, t.uniqueRev.head? = some lu →
        ¬ sim lu.path t.prev.path < θ))
    (fun s a h => step7_keep_inv sim θ s a h) l ⟨[f0], 0, 0, 0, f0.timestamp, f0⟩ ?_
  exact ⟨fun _ => rfl, fun h0 => absurd rfl h0⟩

/-- Under a deterministic similarity oracle the part_007 "always keep last
frame" block never pushes: when the loop ended on a retention the last
input frame is the last retained frame (equal paths); when it ended
mid-streak the last comparison already scored at or above the threshold.
So the filter output is the reverse of the (possibly freeze-marked)
retained list. -/
lemma filterDuplicateFrames_result (sim : String → String → ℚ) (θ : ℚ) (f0 : Frame)
    (l : List Frame) (hl : l ≠ []) (lu : Frame) (lrest : List Frame)
    (hu : (filterCore7 sim θ f0 l).uniqueRev = lu :: lrest) :
    filterDuplicateFrames sim θ (f0 :: l) =
      (if (filterCore7 sim θ f0 l).currentStreak > 2 then
         markFrozenHead (filterCore7 sim θ f0 l).uniqueRev
           (jsRound ((filterCore7 sim θ f0 l).prev.timestamp
             - (filterCore7 sim θ f0 l).streakStartTime))
       else (filterCore7 sim θ f0 l).uniqueRev).reverse := by
  obtain ⟨hQ0, hQ1⟩ := filterCore7_keepQ sim θ f0 l
  rw [filterDuplicateFrames_cons sim θ f0 l hl]
  set s := filterCore7 sim θ f0 l with hs
  simp only []
  by_cases hstreak : s.currentStreak = 0
  · have hhead := hQ0 hstreak
    rw [hu] at hhead
    have hlu : lu = s.prev := by simpa using hhead
    have htr : ¬ s.currentStreak > 2 := by omega
    simp only [if_neg htr, hu]
    rw [if_neg]
    intro hcond
    exact hcond.1 (by rw [hlu])
  · have hQ := hQ1 hstreak lu (by rw [hu]; rfl)
    by_cases htr : s.currentStreak > 2
    · simp only [if_pos htr, hu, markFrozenHead_cons]
      rw [if_neg]
      intro hcond
      exact hQ hcond.2
    · simp only [if_neg htr, hu]
      rw [if_neg]
      intro hcond
      exact hQ hcond.2

lemma reverse_middle (front : List Frame) (X : Frame) (arev : List Frame) :
    (front ++ X :: arev).reverse = arev.reverse ++ X :: front.reverse := by
  rw [List.reverse_append, List.reverse_cons, List.append_assoc, List.singleton_append]

/-- C7: whenever a run of more than 2 consecutive duplicates occurs
between retained frame A and the next retained frame B, both filter
variants set A's frozenDuration to the rounded difference between the
last duplicate's timestamp and A's timestamp (the part_007 variant via
`streakStartTime`, which always equals A's timestamp). -/
theorem C7_midrun_freeze_marking (sim : String → String → ℚ)
    (f0 : Frame) (rest dups : List Frame) (b : Frame) (tail : List Frame) :
    (∀ A arev,
      (filterCore sim f0 rest).uniqueRev = A :: arev →
      2 < (filterCore sim f0 rest).streak + dups.length →
      (∀ d ∈ dups, ¬ sim A.path d.path < 85) →
      sim A.path b.path < 85 →
      ∃ pre post,
        (filterDuplicates sim (f0 :: (rest ++ dups ++ b :: tail))).unique =
          pre ++ { A with frozenDuration := some (jsRound
            ((dups.getLastD (filterCore sim f0 rest).prev).timestamp - A.timestamp)) }
            :: post) ∧
    (∀ A arev,
      (filterCore7 sim 92 f0 rest).uniqueRev = A :: arev →
      2 < (filterCore7 sim 92 f0 rest).currentStreak + dups.length →
      (∀ d ∈ dups, ¬ sim A.path d.path < 92) →
      sim A.path b.path < 92 →
      ∃ pre post,
        filterDuplicateFrames sim 92 (f0 :: (rest ++ dups ++ b :: tail)) =
          pre ++ { A with frozenDuration := some (jsRound
            ((dups.getLastD (filterCore7 sim 92 f0 rest).prev).timestamp - A.timestamp)) }
            :: post) := by
  constructor
  · intro A arev hA hst hdups hb
    have hl : rest ++ dups ++ b :: tail ≠ [] := by simp
    obtain ⟨k1, k2, k3, k4, k5⟩ :=
      foldl_skips sim dups (filterCore sim f0 rest) A arev hA hdups
    have hgt : (dups.foldl (filterStep sim) (filterCore sim f0 rest)).streak > 2 := by
      rw [k4]; omega
    have hs1u : (dups.foldl (filterStep sim) (filterCore sim f0 rest)).uniqueRev
        = A :: arev := by rw [k1, hA]
    have hbstep : filterStep sim (dups.foldl (filterStep sim) (filterCore sim f0 rest)) b =
        { uniqueRev := b ::
            { A with frozenDuration := some (jsRound
              ((dups.getLastD (filterCore sim f0 rest).prev).timestamp - A.timestamp)) }
            :: arev
          removed := (dups.foldl (filterStep sim) (filterCore sim f0 rest)).removed
          freezes := (dups.foldl (filterStep sim) (filterCore sim f0 rest)).freezes + 1
          streak := 0
          prev := b } := by
      rw [filterStep_retain sim _ b A arev hs1u hb, k5]
      simp [hgt]
    obtain ⟨front, hfront, hfe⟩ := foldl_tail_pres sim tail
      (filterStep sim (dups.foldl (filterStep sim) (filterCore sim f0 rest)) b) b
      ({ A with frozenDuration := some (jsRound
          ((dups.getLastD (filterCore sim f0 rest).prev).timestamp - A.timestamp)) } :: arev)
      (by rw [hbstep])
    have hfull : (filterCore sim f0 (rest ++ dups ++ b :: tail)).uniqueRev
        = front ++ { A with frozenDuration := some (jsRound
            ((dups.getLastD (filterCore sim f0 rest).prev).timestamp - A.timestamp)) }
            :: arev := by
      have hconv : filterCore sim f0 (rest ++ dups ++ b :: tail)
          = tail.foldl (filterStep sim)
              (filterStep sim (dups.foldl (filterStep sim) (filterCore sim f0 rest)) b) := by
        unfold filterCore
        rw [List.foldl_append, List.foldl_append, List.foldl_cons]
      rw [hconv]
      exact hfe
    refine ⟨arev.reverse, front.reverse, ?_⟩
    rw [filterDuplicates_cons sim f0 _ hl]
    show (filterCore sim f0 (rest ++ dups ++ b :: tail)).uniqueRev.reverse = _
    rw [hfull, reverse_middle]
  · intro A arev hA hst hdups hb
    have hl : rest ++ dups ++ b :: tail ≠ [] := by simp
    obtain ⟨k1, k2, k3, k4, k5, k6⟩ :=
      foldl_skips7 sim 92 dups (filterCore7 sim 92 f0 rest) A arev hA hdups
    have hstart : (filterCore7 sim 92 f0 rest).streakStartTime = A.timestamp := by
      refine streakStart_inv7 sim 92 rest ⟨[f0], 0, 0, 0, f0.timestamp, f0⟩ ?_ A arev hA
      intro x rev hx
      obtain ⟨h1, -⟩ := List.cons.inj hx
      rw [← h1]
    have hgt : (dups.foldl (filterStep7 sim 92) (filterCore7 sim 92 f0 rest)).currentStreak
        > 2 := by rw [k4]; omega
    have hs1u : (dups.foldl (filterStep7 sim 92) (filterCore7 sim 92 f0 rest)).uniqueRev
        = A :: arev := by rw [k1, hA]
    have hbstep : filterStep7 sim 92
        (dups.foldl (filterStep7 sim 92) (filterCore7 sim 92 f0 rest)) b =
        { uniqueRev := b ::
            { A with frozenDuration := some (jsRound
              ((dups.getLastD (filterCore7 sim 92 f0 rest).prev).timestamp - A.timestamp)) }
            :: arev
          duplicatesRemoved :=
            (dups.foldl (filterStep7 sim 92) (filterCore7 sim 92 f0 rest)).duplicatesRemoved
          frozenStreaks :=
            (dups.foldl (filterStep7 sim 92) (filterCore7 sim 92 f0 rest)).frozenStreaks + 1
          currentStreak := 0
          streakStartTime := b.timestamp
          prev := b } := by
      rw [filterStep7_retain sim 92 _ b A arev hs1u hb, k5, k6, hstart]
      simp [hgt]
    obtain ⟨front, hfront, hfe⟩ := foldl_tail_pres7 sim 92 tail
      (filterStep7 sim 92 (dups.foldl (filterStep7 sim 92) (filterCore7 sim 92 f0 rest)) b) b
      ({ A with frozenDuration := some (jsRound
          ((dups.getLastD (filterCore7 sim 92 f0 rest).prev).timestamp - A.timestamp)) } :: arev)
      (by rw [hbstep])
    have hfull : (filterCore7 sim 92 f0 (rest ++ dups ++ b :: tail)).uniqueRev
        = front ++ { A with frozenDuration := some (jsRound
            ((dups.getLastD (filterCore7 sim 92 f0 rest).prev).timestamp - A.timestamp)) }
            :: arev := by
      have hconv : filterCore7 sim 92 f0 (rest ++ dups ++ b :: tail)
          = tail.foldl (filterStep7 sim 92)
              (filterStep7 sim 92
                (dups.foldl (filterStep7 sim 92) (filterCore7 sim 92 f0 rest)) b) := by
        unfold filterCore7
        rw [List.foldl_append, List.foldl_append, List.foldl_cons]
      rw [hconv]
      exact hfe
    obtain ⟨x, front2, rfl⟩ : ∃ x f2, front = x :: f2 := by
      cases front with
      | nil => exact absurd rfl hfront
      | cons x f2 => exact ⟨x, f2, rfl⟩
    rw [filterDuplicateFrames_result sim 92 f0 (rest ++ dups ++ b :: tail) hl x
      (front2 ++ { A with frozenDuration := some (jsRound
        ((dups.getLastD (filterCore7 sim 92 f0 rest).prev).timestamp - A.timestamp)) } :: arev)
      (by rw [hfull, List.cons_append])]
    by_cases htr : (filterCore7 sim 92 f0 (rest ++ dups ++ b :: tail)).currentStreak > 2
    · refine ⟨arev.reverse, ({ x with frozenDuration := some (jsRound
        ((filterCore7 sim 92 f0 (rest ++ dups ++ b :: tail)).prev.timestamp
          - (filterCore7 sim 92 f0 (rest ++ dups ++ b :: tail)).streakStartTime)) }
        :: front2).reverse, ?_⟩
      rw [if_pos htr, hfull, List.cons_append, markFrozenHead_cons, ← List.cons_append,
        reverse_middle]
    · refine ⟨arev.reverse, (x :: front2).reverse, ?_⟩
      rw [if_neg htr, hfull, reverse_middle]

/-- C7 witness: a streak of three duplicates of `frA` ended by the
dissimilar frame `frB`, in the cloud variant. -/
theorem C7_witness :
    (∀ d ∈ dupsW, ¬ simWb frA.path d.path < 85) ∧
    simWb frA.path frB.path < 85 ∧
    ∃ pre post, (filterDuplicates simWb (frA :: ([] ++ dupsW ++ frB :: []))).unique =
      pre ++ { frA with frozenDuration := some (jsRound
        ((dupsW.getLastD (filterCore simWb frA []).prev).timestamp - frA.timestamp)) }
        :: post :=
  ⟨by decide, by decide,
    (C7_midrun_freeze_marking simWb frA [] dupsW frB []).1 frA [] rfl (by decide)
      (by decide) (by decide)⟩

/-- C3 (amended): at end of input an open duplicate streak longer than 2
sets the final retained frame's frozenDuration only in the part_007
variant (rounded gap from the retained frame's timestamp to the final
input frame, the streak's last duplicate); the cloud/part_005 variant
only increments its freeze counter and leaves every retained frame's
frozenDuration untouched on that path. -/
theorem C3_trailing_streak_marking (sim : String → String → ℚ)
    (f0 : Frame) (rest dups : List Frame) (hdne : dups ≠ []) :
    (∀ A arev,
      (filterCore7 sim 92 f0 rest).uniqueRev = A :: arev →
      2 < (filterCore7 sim 92 f0 rest).currentStreak + dups.length →
      (∀ d ∈ dups, ¬ sim A.path d.path < 92) →
      ∃ pre, filterDuplicateFrames sim 92 (f0 :: (rest ++ dups)) =
        pre ++ [{ A with frozenDuration := some (jsRound
          ((dups.getLastD (filterCore7 sim 92 f0 rest).prev).timestamp - A.timestamp)) }]) ∧
    (∀ A arev,
      (filterCore sim f0 rest).uniqueRev = A :: arev →
      2 < (filterCore sim f0 rest).streak + dups.length →
      (∀ d ∈ dups, ¬ sim A.path d.path < 85) →
      (filterDuplicates sim (f0 :: (rest ++ dups))).freezes
        = (filterCore sim f0 rest).freezes + 1 ∧
      (filterDuplicates sim (f0 :: (rest ++ dups))).unique = (A :: arev).reverse) := by
  have hlne : rest ++ dups ≠ [] := by
    intro hcontra
    exact hdne (List.append_eq_nil.mp hcontra).2
  constructor
  · intro A arev hA hst hdups
    obtain ⟨k1, k2, k3, k4, k5, k6⟩ :=
      foldl_skips7 sim 92 dups (filterCore7 sim 92 f0 rest) A arev hA hdups
    have hstart : (filterCore7 sim 92 f0 rest).streakStartTime = A.timestamp := by
      refine streakStart_inv7 sim 92 rest ⟨[f0], 0, 0, 0, f0.timestamp, f0⟩ ?_ A arev hA
      intro x rev hx
      obtain ⟨h1, -⟩ := List.cons.inj hx
      rw [← h1]
    have hconv : filterCore7 sim 92 f0 (rest ++ dups)
        = dups.foldl (filterStep7 sim 92) (filterCore7 sim 92 f0 rest) := by
      unfold filterCore7
      rw [List.foldl_append]
    have hufull : (filterCore7 sim 92 f0 (rest ++ dups)).uniqueRev = A :: arev := by
      rw [hconv, k1, hA]
    have htr : (filterCore7 sim 92 f0 (rest ++ dups)).currentStreak > 2 := by
      rw [hconv, k4]; omega
    refine ⟨arev.reverse, ?_⟩
    rw [filterDuplicateFrames_result sim 92 f0 (rest ++ dups) hlne A arev hufull,
      if_pos htr, hufull, markFrozenHead_cons, List.reverse_cons]
    rw [hconv, k5, k6, hstart]
  · intro A arev hA hst hdups
    obtain ⟨k1, k2, k3, k4, k5⟩ :=
      foldl_skips sim dups (filterCore sim f0 rest) A arev hA hdups
    have hconv : filterCore sim f0 (rest ++ dups)
        = dups.foldl (filterStep sim) (filterCore sim f0 rest) := by
      unfold filterCore
      rw [List.foldl_append]
    rw [filterDuplicates_cons sim f0 _ hlne]
    constructor
    · show (if (filterCore sim f0 (rest ++ dups)).streak > 2
          then (filterCore sim f0 (rest ++ dups)).freezes + 1
          else (filterCore sim f0 (rest ++ dups)).freezes) = _
      rw [hconv, k4, k3, if_pos (by omega)]
    · show (filterCore sim f0 (rest ++ dups)).uniqueRev.reverse = _
      rw [hconv, k1, hA]

/-- C3 counterexample: four near-identical frames (one retained frame
followed by an open streak of three duplicates) in the cloud variant.
The freeze counter becomes 1 but no retained frame carries a
frozenDuration — contradicting the claim that the final retained frame's
frozenDuration is set to the rounded trailing gap. -/
theorem C3_cex_cloud_no_trailing_mark :
    (filterDuplicates simC100 (frA :: dupsW)).freezes = 1 ∧
    (filterDuplicates simC100 (frA :: dupsW)).unique.map Frame.frozenDuration = [none] := by
  constructor
  · decide
  · decide

/-- C3 witness: the part_007 variant at the same scenario does write the
trailing freeze marking. -/
theorem C3_witness :
    (∀ d ∈ dupsW, ¬ simC100 frA.path d.path < 92) ∧
    2 < (filterCore7 simC100 92 frA []).currentStreak + dupsW.length ∧
    ∃ pre, filterDuplicateFrames simC100 92 (frA :: ([] ++ dupsW)) =
      pre ++ [{ frA with frozenDuration := some (jsRound
        ((dupsW.getLastD (filterCore7 simC100 92 frA []).prev).timestamp
          - frA.timestamp)) }] :=
  ⟨by decide, by decide,
    (C3_trailing_streak_marking simC100 frA [] dupsW (by decide)).1 frA [] rfl (by decide)
      (by decide)⟩

/-- C8: both filter variants keep the first input frame as the first
output frame (up to the freeze annotation the filter itself attaches) and
never produce more frames than they consume. -/
theorem C8_filter_first_frame (sim : String → String → ℚ) (θ : ℚ)
    (f0 : Frame) (rest : List Frame) :
    ((filterDuplicates sim (f0 :: rest)).unique.length ≤ (f0 :: rest).length ∧
     ∃ f, (filterDuplicates sim (f0 :: rest)).unique.head? = some f ∧
       stripFrozen f = stripFrozen f0) ∧
    ((filterDuplicateFrames sim θ (f0 :: rest)).length ≤ (f0 :: rest).length ∧
     ∃ f, (filterDuplicateFrames sim θ (f0 :: rest)).head? = some f ∧
       stripFrozen f = stripFrozen f0) := by
  cases rest with
  | nil =>
    exact ⟨⟨Nat.le.refl, ⟨f0, rfl, rfl⟩⟩, ⟨Nat.le.refl, ⟨f0, rfl, rfl⟩⟩⟩
  | cons f1 rs =>
    have hl : f1 :: rs ≠ [] := by simp
    have hstrip : ∃ g, (filterCore sim f0 (f1 :: rs)).uniqueRev.getLast? = some g ∧
        stripFrozen g = stripFrozen f0 := by
      refine foldl_pres (filterStep sim)
        (fun t => ∃ g, t.uniqueRev.getLast? = some g ∧ stripFrozen g = stripFrozen f0)
        (fun s a h => step_last_strip sim f0 s a h) (f1 :: rs) ⟨[f0], 0, 0, 0, f0⟩ ?_
      exact ⟨f0, by simp, rfl⟩
    have hlen : (filterCore sim f0 (f1 :: rs)).uniqueRev.length ≤ 1 + (f1 :: rs).length :=
      foldl_len sim (f1 :: rs) ⟨[f0], 0, 0, 0, f0⟩
    constructor
    · rw [filterDuplicates_cons sim f0 _ hl]
      constructor
      · show (filterCore sim f0 (f1 :: rs)).uniqueRev.reverse.length ≤ _
        rw [List.length_reverse]
        simp only [List.length_cons] at hlen ⊢
        omega
      · obtain ⟨g, hg, hgs⟩ := hstrip
        refine ⟨g, ?_, hgs⟩
        show (filterCore sim f0 (f1 :: rs)).uniqueRev.reverse.head? = some g
        rw [List.head?_reverse]
        exact hg
    · have hstrip7 : ∃ g, (filterCore7 sim θ f0 (f1 :: rs)).uniqueRev.getLast? = some g ∧
          stripFrozen g = stripFrozen f0 := by
        refine foldl_pres (filterStep7 sim θ)
          (fun t => ∃ g, t.uniqueRev.getLast? = some g ∧ stripFrozen g = stripFrozen f0)
          (fun s a h => step7_last_strip sim θ f0 s a h) (f1 :: rs)
          ⟨[f0], 0, 0, 0, f0.timestamp, f0⟩ ?_
        exact ⟨f0, by simp, rfl⟩
      obtain ⟨g, hg, hgs⟩ := hstrip7
      obtain ⟨lu, lrest, hu⟩ : ∃ lu lrest,
          (filterCore7 sim θ f0 (f1 :: rs)).uniqueRev = lu :: lrest := by
        cases hcc : (filterCore7 sim θ f0 (f1 :: rs)).uniqueRev with
        | nil => rw [hcc] at hg; cases hg
        | cons a as => exact ⟨a, as, rfl⟩
      rw [filterDuplicateFrames_result sim θ f0 (f1 :: rs) hl lu lrest hu]
      have hlen7 : (filterCore7 sim θ f0 (f1 :: rs)).uniqueRev.length
          ≤ 1 + (f1 :: rs).length :=
        foldl_len7 sim θ (f1 :: rs) ⟨[f0], 0, 0, 0, f0.timestamp, f0⟩
      constructor
      · rw [List.length_reverse]
        by_cases htr : (filterCore7 sim θ f0 (f1 :: rs)).currentStreak > 2
        · rw [if_pos htr, markFrozenHead_length]
          simp only [List.length_cons] at hlen7 ⊢
          omega
        · rw [if_neg htr]
          simp only [List.length_cons] at hlen7 ⊢
          omega
      · by_cases htr : (filterCore7 sim θ f0 (f1 :: rs)).currentStreak > 2
        · rw [if_pos htr, List.head?_reverse]
          exact markFrozenHead_last_strip f0 _ _ ⟨g, hg, hgs⟩
        · rw [if_neg htr, List.head?_reverse]
          exact ⟨g, hg, hgs⟩

/-- C5 witness: every part_007 backend raises `quota exceeded`. -/
theorem C5_witness :
    (∀ m ∈ geminiModels7,
      ∃ e, (fun (_ : String) => (Except.error "quota exceeded" : Except String String)) m
        = .error e) ∧
    analyzeWithGemini true (fun _ => true) (fun _ => .error "quota exceeded")
      [{ path := "frame_000.jpg", timestamp := 2 }] =
      { success := false, error := some ("All models failed: " ++ "quota exceeded") } :=
  ⟨fun _ _ => ⟨"quota exceeded", rfl⟩,
    (C5_all_backends_fail.1 (fun _ => true) (fun _ => .error "quota exceeded")
      [{ path := "frame_000.jpg", timestamp := 2 }] "quota exceeded"
      (fun _ _ => ⟨"quota exceeded", rfl⟩) rfl (by decide)).1⟩

end BharatQA
